import Mathlib

/-!
# Foodgram backend — shallow embedding and verification

This file embeds the core of the foodgram recipe backend
(`backend/api/views.py`, `backend/api/serializers.py`,
`backend/recipes/models.py`, `backend/core/constants.py`) as executable
Lean definitions, and proves/refutes the specification claims about:

* the shopping-list aggregation (`RecipeViewSet.download_shopping_cart`),
* recipe create/update association handling (`RecipeCreateSerializer`),
* the favorites / shopping-cart collection operations
  (`FavoritesShoppingCartSerializer.validate`, `RecipeViewSet.add_recipe`,
  `RecipeViewSet.delete_recipe`),
* the short-link endpoint (`RecipeViewSet.get_link`),
* the serialized `is_favorited` / `is_in_shopping_cart` flags
  (`RecipeSerializer`).

Database tables are embedded as lists of rows; queryset operations become
list operations over those rows.  Primary keys are natural numbers.
-/

namespace Foodgram

/-! ## Constants (`backend/core/constants.py`) -/

def AMOUNT_MAX : Int := 1000
def AMOUNT_MIN : Int := 0
def COOKING_MAX_TIME : Int := 1440
def COOKING_MIN_TIME : Int := 1
def SHORT_LINK_SIZE : Nat := 8

/-! ## Data model (`backend/recipes/models.py`) -/

/-- An `Ingredient` model row: unique name and a measurement unit. -/
structure Ingredient where
  id : Nat
  name : String
  measurement_unit : String
deriving DecidableEq

/-- A `RecipeIngredients` junction row: recipe id, ingredient id, amount.
The model also carries a `measurement_unit` copy, which
`add_ingredients_to_recipe` never sets (Django fills the CharField with
the empty-string default); it is irrelevant to every claim and we record
it faithfully as a string field. -/
structure RecipeIngredientsRow where
  recipe : Nat
  ingredient : Nat
  amount : Int
  measurement_unit : String
deriving DecidableEq

/-- A `FavoritesRecipe` / `ShoppingCart` row: an (author, recipe) pair.
Both models share this shape via `RecipeRelationModel`. -/
structure CollectionEntry where
  author : Nat
  recipe : Nat
deriving DecidableEq

/-- The portion of the relational store the verified operations touch.
`recipes` holds the ids of existing `Recipe` rows; `recipe_tags` holds
the rows of the implicit `Recipe.tags` many-to-many table as
(recipe id, tag id) pairs. -/
structure StoreState where
  ingredients : List Ingredient
  recipes : List Nat
  recipe_ingredients : List RecipeIngredientsRow
  recipe_tags : List (Nat × Nat)
  favorites : List CollectionEntry
  shoppingcart : List CollectionEntry
deriving DecidableEq

/-- Verbose name of `FavoritesRecipe` (`Meta.verbose_name`). -/
def favoritesVerboseName : String := "Избранное"

/-- Verbose name of `ShoppingCart` (`Meta.verbose_name`). -/
def shoppingCartVerboseName : String := "Список покупок"

/-! ## Serializer input for recipe create/update

`RecipeIngredientSerializer` resolves the submitted primary key to an
`Ingredient` object, so each validated ingredient entry carries the
resolved ingredient's id and name together with the submitted amount. -/

structure IngredientEntry where
  id : Nat
  name : String
  amount : Int
deriving DecidableEq

/-! ## C10: `RecipeSerializer.get_is_favorited` / `get_is_in_shopping_cart`
(`backend/api/serializers.py` lines 74–94) -/

/-- The request context the serializer consults: the authenticated-or-not
user of the request, when a request is present at all. -/
structure RequestCtx where
  userIsAnonymous : Bool
  userId : Nat
deriving DecidableEq

/-- Embeds `RecipeSerializer.get_is_favorited`: `False` when the context has no
request or the user is anonymous, otherwise an existence test of the
(author = request.user, recipe = obj) pair in the favorites table. -/
def get_is_favorited (favorites : List CollectionEntry)
    (ctx : Option RequestCtx) (recipeId : Nat) : Bool :=
  match ctx with
  | none => false
  | some req =>
    if req.userIsAnonymous then false
    else favorites.any fun e => e.author == req.userId && e.recipe == recipeId

/-- Embeds `RecipeSerializer.get_is_in_shopping_cart`: same shape over the
shopping-cart table. -/
def get_is_in_shopping_cart (shoppingcart : List CollectionEntry)
    (ctx : Option RequestCtx) (recipeId : Nat) : Bool :=
  match ctx with
  | none => false
  | some req =>
    if req.userIsAnonymous then false
    else shoppingcart.any fun e => e.author == req.userId && e.recipe == recipeId

/-! ## C3/C4/C9: collection add / delete
(`backend/api/views.py` `add_recipe`, `delete_recipe`;
`backend/api/serializers.py` `FavoritesShoppingCartSerializer.validate`) -/

/-- Embeds `FavoritesShoppingCartSerializer.validate`: if the (author, recipe)
pair already exists in the collection's table, produce the
ValidationError message naming the collection; otherwise accept. -/
def collectionValidate (table : List CollectionEntry) (verboseName : String)
    (user recipeId : Nat) : Option String :=
  if table.any fun e => e.author == user && e.recipe == recipeId then
    some ("Рецепт уже находится в " ++ verboseName)
  else
    none

/-- Outcome of `RecipeViewSet.add_recipe`. -/
inductive AddOutcome where
  | notFound
  | conflict (msg : String)
  | created (entry : CollectionEntry)
deriving DecidableEq

/-- Embeds `RecipeViewSet.add_recipe`: 404 when the recipe id does not exist
(`get_object_or_404`), then the serializer's `validate` (conflict on a
duplicate pair), then `serializer.save(author=request.user)` which
inserts the row. Returns the outcome and the resulting table. -/
def add_recipe (recipes : List Nat) (table : List CollectionEntry)
    (verboseName : String) (user recipeId : Nat) :
    AddOutcome × List CollectionEntry :=
  if recipeId ∈ recipes then
    match collectionValidate table verboseName user recipeId with
    | some msg => (.conflict msg, table)
    | none => (.created ⟨user, recipeId⟩, table ++ [⟨user, recipeId⟩])
  else
    (.notFound, table)

/-- Outcome of a raced `add_recipe`: `validate` runs against the table as
it stood at check time, while the insert executes against the table as it
stands at save time (another request may have inserted the pair in
between).  `RecipeViewSet.add_recipe` wraps `serializer.save` in no
try/except, so the `UniqueConstraint` violation raised by the store on
the lost race propagates out of the view as an unhandled integrity
error — it is not translated into the serializer's conflict message. -/
inductive RacedOutcome where
  | created
  | conflict (msg : String)
  | unhandledIntegrityError
deriving DecidableEq

/-- Embeds `add_recipe` under a race: fast-path check against `checkTable`,
insert against `insertTable`. -/
def add_recipe_raced (checkTable insertTable : List CollectionEntry)
    (verboseName : String) (user recipeId : Nat) : RacedOutcome :=
  if checkTable.any fun e => e.author == user && e.recipe == recipeId then
    .conflict ("Рецепт уже находится в " ++ verboseName)
  else if insertTable.any fun e => e.author == user && e.recipe == recipeId then
    .unhandledIntegrityError
  else
    .created

/-- Outcome of `RecipeViewSet.delete_recipe`. -/
inductive DeleteOutcome where
  | notFound
  | badRequest
  | noContent
deriving DecidableEq

/-- Embeds `RecipeViewSet.delete_recipe`: 404 when the recipe id does not exist,
otherwise delete the rows matching (author = request.user, recipe) and
report 400 when zero rows were deleted, 204 otherwise. -/
def delete_recipe (recipes : List Nat) (table : List CollectionEntry)
    (user recipeId : Nat) : DeleteOutcome × List CollectionEntry :=
  if recipeId ∈ recipes then
    let remaining := table.filter fun e => !(e.author == user && e.recipe == recipeId)
    let deletedCount := table.length - remaining.length
    if deletedCount == 0 then (.badRequest, table)
    else (.noContent, remaining)
  else
    (.notFound, table)

end Foodgram

namespace Foodgram

/-! ## C6: amount validation layers

`RecipeIngredientSerializer` is a `ModelSerializer` over
`RecipeIngredients`, so its `amount` field inherits the model field's
validators `MaxValueValidator(AMOUNT_MAX)` / `MinValueValidator(AMOUNT_MIN)`
(`backend/recipes/models.py` lines 179–192) and they run during field
validation; `RecipeCreateSerializer.validate` then additionally rejects
`amount <= 0` (`backend/api/serializers.py` lines 173–178). -/

/-- The model-field validators on `RecipeIngredients.amount`:
`MinValueValidator(AMOUNT_MIN)` and `MaxValueValidator(AMOUNT_MAX)`. -/
def amountFieldValid (a : Int) : Bool :=
  decide (AMOUNT_MIN ≤ a) && decide (a ≤ AMOUNT_MAX)

/-- The amount check inside `RecipeCreateSerializer.validate`:
reject when `amount is None or amount <= 0`. -/
def amountSerializerValid (a : Int) : Bool :=
  decide (0 < a)

/-- An ingredient amount is accepted iff it passes both the field
validators and the serializer-level check. -/
def amountAccepted (a : Int) : Bool :=
  amountFieldValid a && amountSerializerValid a

end Foodgram

namespace Foodgram

/-! ## C1: shopping-list aggregation
(`RecipeViewSet.download_shopping_cart`, `backend/api/views.py` 189–194)

The view evaluates

  RecipeIngredients.objects.filter(recipe__shoppingcart__author=user)
      .values('ingredient__name', 'ingredient__measurement_unit')
      .annotate(total_amount=Sum('amount'))

i.e. the junction rows whose recipe is in the user's cart, grouped by the
joined ingredient's (name, measurement_unit) with the amounts summed per
group.  GROUP BY + SUM is embedded as a fold that inserts each row into
an accumulator keyed by the grouping key. -/

/-- Fold one (key, amount) row into a grouped accumulator: add the amount
to the existing group for the key, or open a new group at the end. -/
def insertRow {κ : Type} [DecidableEq κ] :
    List (κ × Int) → κ → Int → List (κ × Int)
  | [], k, a => [(k, a)]
  | (k', a') :: rest, k, a =>
    if k' = k then (k', a' + a) :: rest
    else (k', a') :: insertRow rest k a

/-- GROUP BY the key, SUM the amounts (groups in first-appearance order). -/
def groupSum {κ : Type} [DecidableEq κ] (rows : List (κ × Int)) :
    List (κ × Int) :=
  rows.foldl (fun acc r => insertRow acc r.1 r.2) []

/-- The `Ingredient.objects` lookup by primary key (the join
`RecipeIngredients → Ingredient` along the foreign key). -/
def lookupIngredient (ingredients : List Ingredient) (iid : Nat) :
    Option Ingredient :=
  ingredients.find? fun i => i.id == iid

/-- The joined rows
`RecipeIngredients.objects.filter(recipe__shoppingcart__author=user)`:
each junction row whose recipe some cart entry of `user` references,
paired with its joined `Ingredient`. -/
def cartItemRows (st : StoreState) (user : Nat) : List (Ingredient × Int) :=
  st.recipe_ingredients.filterMap fun ri =>
    if st.shoppingcart.any fun c => c.author == user && c.recipe == ri.recipe then
      (lookupIngredient st.ingredients ri.ingredient).map fun ing =>
        (ing, ri.amount)
    else none

/-- One row of the aggregation result. -/
structure ShoppingItem where
  name : String
  measurement_unit : String
  total_amount : Int
deriving DecidableEq

/-- The grouping key of the `.values(...)` clause: the joined
ingredient's (name, measurement_unit) pair. -/
def nameUnitKey (i : Ingredient) : String × String :=
  (i.name, i.measurement_unit)

/-- Embeds the aggregation of `download_shopping_cart`: group the user's cart junction
rows by (ingredient name, measurement unit) and sum the amounts. -/
def build (st : StoreState) (user : Nat) : List ShoppingItem :=
  (groupSum ((cartItemRows st user).map fun r =>
    (nameUnitKey r.1, r.2))).map fun p =>
      ⟨p.1.1, p.1.2, p.2⟩

/-- Modelled from the spec words for the refinement comparison of C1:
"group by the ingredient identity …, project name/unit afterward" — the
same rows grouped by the whole `Ingredient` value (its identity), with
name and unit projected from the group key afterwards. -/
def build_by_identity (st : StoreState) (user : Nat) : List ShoppingItem :=
  (groupSum (cartItemRows st user)).map fun p =>
    ⟨p.1.name, p.1.measurement_unit, p.2⟩

/-! ## C2/C5/C7: `RecipeCreateSerializer`
(`backend/api/serializers.py` lines 144–229) -/

/-- The per-ingredient loop of `RecipeCreateSerializer.validate`:
walks the entries carrying the list of ingredient ids seen so far;
an id seen before is a duplicate-ingredient error, then an amount that is
missing or `<= 0` is an amount error. -/
def validateIngredientsLoop (seen : List Nat) :
    List IngredientEntry → Except String Unit
  | [] => .ok ()
  | e :: rest =>
    if e.id ∈ seen then
      .error (e.name ++ " уже добавлен в рецепт.")
    else if e.amount ≤ 0 then
      .error ("Неправильное количество " ++ e.name ++
        ". Количество должно быть больше нуля.")
    else
      validateIngredientsLoop (e.id :: seen) rest

/-- Embeds `RecipeCreateSerializer.validate`: no tags → error; duplicate tag ids
(`len(tag_ids) != len(set(tag_ids))`) → error; no ingredients → error;
then the per-ingredient loop. -/
def recipeCreateValidate (tags : List Nat) (entries : List IngredientEntry) :
    Except String Unit :=
  if tags = [] then
    .error "В рецепте не выбран тэг."
  else if tags.length ≠ tags.dedup.length then
    .error "Теги не должны повторяться."
  else if entries = [] then
    .error "В рецепте не выбраны ингредиенты."
  else
    validateIngredientsLoop [] entries

/-- Embeds `RecipeCreateSerializer.add_ingredients_to_recipe`: one
`bulk_create` of a junction row per submitted entry, in the order the
entries were submitted (the generator expression iterates `ingredients`
as given; the `measurement_unit` column is left at its empty default). -/
def add_ingredients_to_recipe (st : StoreState) (recipe : Nat)
    (entries : List IngredientEntry) : StoreState :=
  { st with recipe_ingredients :=
      st.recipe_ingredients ++
        entries.map fun e => ⟨recipe, e.id, e.amount, ""⟩ }

/-- The writes of `RecipeCreateSerializer.create` (after validation):
create the recipe row, set its tags, bulk-insert the junction rows. -/
def performCreate (st : StoreState) (newId : Nat) (tags : List Nat)
    (entries : List IngredientEntry) : StoreState :=
  let st1 := { st with recipes := st.recipes ++ [newId] }
  let st2 := { st1 with recipe_tags := st1.recipe_tags ++ tags.map fun t => (newId, t) }
  add_ingredients_to_recipe st2 newId entries

/-- The writes of `RecipeCreateSerializer.update`:
`instance.ingredients.clear()`, `instance.tags.clear()`,
`instance.tags.set(tags_data)`, `add_ingredients_to_recipe`, then the
scalar-field update (which touches no association row). -/
def performUpdate (st : StoreState) (recipe : Nat) (tags : List Nat)
    (entries : List IngredientEntry) : StoreState :=
  let st1 := { st with recipe_ingredients :=
    st.recipe_ingredients.filter fun j => !(j.recipe == recipe) }
  let st2 := { st1 with recipe_tags :=
    st1.recipe_tags.filter fun t => !(t.1 == recipe) }
  let st3 := { st2 with recipe_tags :=
    st2.recipe_tags ++ tags.map fun t => (recipe, t) }
  add_ingredients_to_recipe st3 recipe entries

/-- Serializer `save` for create: `is_valid(raise_exception=True)` runs
`validate` before any write, so a validation error leaves the store
untouched and reports the message; otherwise the writes run. -/
def runCreate (st : StoreState) (newId : Nat) (tags : List Nat)
    (entries : List IngredientEntry) : StoreState × Option String :=
  match recipeCreateValidate tags entries with
  | .error m => (st, some m)
  | .ok _ => (performCreate st newId tags entries, none)

/-- Serializer `save` for update, same validate-before-write shape. -/
def runUpdate (st : StoreState) (recipe : Nat) (tags : List Nat)
    (entries : List IngredientEntry) : StoreState × Option String :=
  match recipeCreateValidate tags entries with
  | .error m => (st, some m)
  | .ok _ => (performUpdate st recipe tags entries, none)

/-- The ingredient names of a recipe's junction rows, in stored order
(join to `Ingredient` along the foreign key). -/
def junctionNames (st : StoreState) (recipe : Nat) : List String :=
  (st.recipe_ingredients.filter fun j => j.recipe == recipe).filterMap
    fun j => (lookupIngredient st.ingredients j.ingredient).map Ingredient.name

/-! ## C8: the short-link endpoint (`RecipeViewSet.get_link`,
`backend/api/views.py` 233–248; `backend/recipes/models.py` 74–157)

`get_link` reads and writes `recipe.short_link` and filters
`Recipe.objects.filter(short_link=...)`.  The field lists below are the
concrete fields declared on the `Recipe` model (including the `author`
field inherited from `AuthorModel` and the two many-to-many fields) and
on the separate `RecipeShortLink` model. -/

/-- The fields declared on the `Recipe` model. -/
def recipeModelFields : List String :=
  ["author", "name", "image", "text", "ingredients", "tags",
   "cooking_time", "pub_date"]

/-- The fields declared on the `RecipeShortLink` model. -/
def recipeShortLinkModelFields : List String :=
  ["short_link", "original_url"]

/-- The attribute `RecipeViewSet.get_link` reads on its `Recipe` object
and uses as a `Recipe.objects.filter` lookup. -/
def getLinkAttributeUsed : String := "short_link"

end Foodgram

namespace Foodgram

/-! ## Concrete stores used to evaluate the definitions -/

/-- The spec's aggregation example: one ingredient "flour" (unit "г"),
two recipes both using flour (200 and 300), both in user 1's cart. -/
def flourStore : StoreState where
  ingredients := [⟨1, "flour", "г"⟩]
  recipes := [1, 2]
  recipe_ingredients := [⟨1, 1, 200, ""⟩, ⟨2, 1, 300, ""⟩]
  recipe_tags := []
  favorites := []
  shoppingcart := [⟨1, 1⟩, ⟨1, 2⟩]

/-- Store for the junction-row ordering check: ingredient 1 is named
"banana", ingredient 2 "apple"; recipe 1 exists with no junction rows. -/
def orderStore : StoreState where
  ingredients := [⟨1, "banana", "г"⟩, ⟨2, "apple", "г"⟩]
  recipes := [1]
  recipe_ingredients := []
  recipe_tags := []
  favorites := []
  shoppingcart := []

/-- Ingredient entries submitted in the order banana-then-apple,
i.e. not in ascending name order. -/
def orderEntries : List IngredientEntry :=
  [⟨1, "banana", 100⟩, ⟨2, "apple", 200⟩]

/-- A small store for the validation claims: one ingredient, one recipe,
no associations. -/
def plainStore : StoreState where
  ingredients := [⟨1, "flour", "г"⟩]
  recipes := [1]
  recipe_ingredients := []
  recipe_tags := []
  favorites := []
  shoppingcart := []

end Foodgram

namespace Foodgram

/-! ## Byte-wise name order, for stating "sorted by ingredient name" -/

/-- Lexicographic comparison of two code-point lists. -/
def codePointsLe : List Nat → List Nat → Bool
  | [], _ => true
  | _ :: _, [] => false
  | x :: xs, y :: ys =>
    if x < y then true
    else if y < x then false
    else codePointsLe xs ys

/-- Whether `a` precedes-or-equals `b` in code-point order of their names. -/
def strLeb (a b : String) : Bool :=
  codePointsLe (a.toList.map Char.toNat) (b.toList.map Char.toNat)

end Foodgram

namespace Foodgram

/-! ## Theorems -/

/-- C10: the serialized `is_favorited` and `is_in_shopping_cart` flags
are `false` whenever the request context is absent or the requesting
user is anonymous, regardless of the favorites and cart tables. -/
theorem flags_false_without_authenticated_request
    (favorites shoppingcart : List CollectionEntry) (ctx : Option RequestCtx)
    (recipeId : Nat)
    (h : ctx = none ∨ ∃ req, ctx = some req ∧ req.userIsAnonymous = true) :
    get_is_favorited favorites ctx recipeId = false ∧
      get_is_in_shopping_cart shoppingcart ctx recipeId = false := by
  rcases h with h | ⟨req, hc, ha⟩
  · subst h
    exact ⟨rfl, rfl⟩
  · subst hc
    simp [get_is_favorited, get_is_in_shopping_cart, ha]

theorem flags_false_without_authenticated_request_witness :
    ((some ⟨true, 5⟩ : Option RequestCtx) = none ∨
      ∃ req, (some ⟨true, 5⟩ : Option RequestCtx) = some req ∧
        req.userIsAnonymous = true) ∧
    get_is_favorited [⟨5, 7⟩] (some ⟨true, 5⟩) 7 = false ∧
      get_is_in_shopping_cart [⟨5, 7⟩] (some ⟨true, 5⟩) 7 = false :=
  ⟨Or.inr ⟨⟨true, 5⟩, rfl, rfl⟩,
    flags_false_without_authenticated_request [⟨5, 7⟩] [⟨5, 7⟩]
      (some ⟨true, 5⟩) 7 (Or.inr ⟨⟨true, 5⟩, rfl, rfl⟩)⟩

/-- C6: an ingredient amount passes both validation layers (the model
field validators inherited by the serializer field and the check in
`RecipeCreateSerializer.validate`) exactly when it lies in [1, 1000]. -/
theorem amount_accepted_iff (a : Int) :
    amountAccepted a = true ↔ 1 ≤ a ∧ a ≤ 1000 := by
  simp only [amountAccepted, amountFieldValid, amountSerializerValid,
    AMOUNT_MIN, AMOUNT_MAX, Bool.and_eq_true, decide_eq_true_eq]
  omega

/-- C4: a collection add that passes the fast-path existence check
(the pair is absent from the table the check reads) but loses the race
(the pair is present in the table the insert runs against) surfaces the
store's uniqueness violation as an unhandled integrity error, not as the
fast path's conflict error: `RecipeViewSet.add_recipe` has no handler
around `serializer.save`. -/
theorem raced_add_leaks_integrity_error :
    add_recipe_raced [] [⟨1, 1⟩] favoritesVerboseName 1 1 =
      RacedOutcome.unhandledIntegrityError ∧
    ∀ msg, add_recipe_raced [] [⟨1, 1⟩] favoritesVerboseName 1 1 ≠
      RacedOutcome.conflict msg := by
  refine ⟨rfl, ?_⟩
  intro msg
  simp [add_recipe_raced]

/-- C8: the `Recipe` model declares no `short_link` field, yet
`RecipeViewSet.get_link` reads and filters on exactly that attribute of
its `Recipe` object; the only `short_link` column lives on the unrelated
`RecipeShortLink` model, so the endpoint fails instead of returning a
token. -/
theorem get_link_uses_missing_recipe_field :
    getLinkAttributeUsed ∉ recipeModelFields ∧
      getLinkAttributeUsed ∈ recipeShortLinkModelFields := by
  decide

end Foodgram

namespace Foodgram

/-- C2: `RecipeCreateSerializer.update` replaces the association sets:
after the update writes, the recipe's junction rows carry exactly the new
(ingredient, amount) entries in submission order, its tag rows are
exactly the new tag list, and no junction row of the recipe references an
ingredient outside the new set. -/
theorem update_replaces_association_sets (st : StoreState) (r : Nat)
    (tags : List Nat) (entries : List IngredientEntry) :
    (((performUpdate st r tags entries).recipe_ingredients.filter
        fun j => j.recipe == r).map fun j => (j.ingredient, j.amount)) =
      entries.map (fun e => (e.id, e.amount)) ∧
    (((performUpdate st r tags entries).recipe_tags.filter
        fun t => t.1 == r).map Prod.snd) = tags ∧
    (∀ j ∈ (performUpdate st r tags entries).recipe_ingredients,
      j.recipe = r → j.ingredient ∈ entries.map IngredientEntry.id) := by
  refine ⟨?_, ?_, ?_⟩
  · simp [performUpdate, add_ingredients_to_recipe, List.filter_append,
      List.filter_filter, List.filter_map, Function.comp_def]
  · simp [performUpdate, add_ingredients_to_recipe, List.filter_append,
      List.filter_filter, List.filter_map, Function.comp_def]
  · intro j hj hrec
    simp only [performUpdate, add_ingredients_to_recipe, List.mem_append,
      List.mem_filter, List.mem_map] at hj
    rcases hj with ⟨_, hne⟩ | ⟨e, he, hje⟩
    · simp [hrec] at hne
    · subst hje
      exact List.mem_map.mpr ⟨e, he, rfl⟩

/-- C7 (amended): `add_ingredients_to_recipe` appends the junction rows
in one batch in the order the entries were submitted — it does not sort
them by ingredient name. -/
theorem add_ingredients_appends_in_input_order (st : StoreState) (r : Nat)
    (entries : List IngredientEntry) :
    ((add_ingredients_to_recipe st r entries).recipe_ingredients.filter
        fun j => j.recipe == r) =
      (st.recipe_ingredients.filter fun j => j.recipe == r) ++
        entries.map (fun e => ⟨r, e.id, e.amount, ""⟩) := by
  simp [add_ingredients_to_recipe, List.filter_append, List.filter_map,
    Function.comp_def]

/-- C7 (counterexample): entries submitted as banana-then-apple are
stored as banana-then-apple — the stored junction rows are not sorted by
ingredient name. -/
theorem add_ingredients_not_sorted_by_name :
    junctionNames (add_ingredients_to_recipe orderStore 1 orderEntries) 1 =
      ["banana", "apple"] ∧
    ¬ List.Pairwise (fun a b => strLeb a b = true)
      (junctionNames (add_ingredients_to_recipe orderStore 1 orderEntries) 1) := by
  constructor
  · decide
  · decide

end Foodgram

namespace Foodgram

/-- C3: with the recipe present and the (user, recipe) pair not yet in
the collection, the first add creates the entry; the resulting table
holds exactly one entry for the pair; and the second add fails with the
conflict message naming the collection, leaving the table unchanged. -/
theorem add_twice_single_entry_and_conflict (recipes : List Nat)
    (table : List CollectionEntry) (verboseName : String) (user recipeId : Nat)
    (hrec : recipeId ∈ recipes)
    (hnew : (⟨user, recipeId⟩ : CollectionEntry) ∉ table) :
    add_recipe recipes table verboseName user recipeId =
      (.created ⟨user, recipeId⟩, table ++ [(⟨user, recipeId⟩ : CollectionEntry)]) ∧
    (table ++ [(⟨user, recipeId⟩ : CollectionEntry)]).count
      (⟨user, recipeId⟩ : CollectionEntry) = 1 ∧
    add_recipe recipes (table ++ [(⟨user, recipeId⟩ : CollectionEntry)])
        verboseName user recipeId =
      (.conflict ("Рецепт уже находится в " ++ verboseName),
        table ++ [(⟨user, recipeId⟩ : CollectionEntry)]) := by
  have hpair : ∀ e : CollectionEntry,
      (e.author == user && e.recipe == recipeId) = true ↔
        e = ⟨user, recipeId⟩ := by
    intro e
    cases e
    simp [CollectionEntry.mk.injEq]
  have hany1 : (table.any fun e => e.author == user && e.recipe == recipeId)
      = false := by
    rw [List.any_eq_false]
    intro e he h
    exact hnew ((hpair e).mp h ▸ he)
  have hany2 : ((table ++ [(⟨user, recipeId⟩ : CollectionEntry)]).any
      fun e => e.author == user && e.recipe == recipeId) = true := by
    rw [List.any_eq_true]
    exact ⟨(⟨user, recipeId⟩ : CollectionEntry), by simp, (hpair _).mpr rfl⟩
  have h0 : table.count (⟨user, recipeId⟩ : CollectionEntry) = 0 :=
    List.count_eq_zero.mpr hnew
  refine ⟨?_, ?_, ?_⟩
  · simp [add_recipe, collectionValidate, hrec, hany1]
  · simp [List.count_append, h0]
  · simp [add_recipe, collectionValidate, hrec, hany2]

theorem add_twice_single_entry_and_conflict_witness :
    (1 ∈ ([1] : List Nat)) ∧
    ((⟨1, 1⟩ : CollectionEntry) ∉ ([] : List CollectionEntry)) ∧
    (add_recipe [1] [] favoritesVerboseName 1 1 =
        (.created ⟨1, 1⟩, [⟨1, 1⟩]) ∧
      ([] ++ [(⟨1, 1⟩ : CollectionEntry)]).count
        (⟨1, 1⟩ : CollectionEntry) = 1 ∧
      add_recipe [1] ([] ++ [⟨1, 1⟩]) favoritesVerboseName 1 1 =
        (.conflict ("Рецепт уже находится в " ++ favoritesVerboseName),
          [] ++ [⟨1, 1⟩])) :=
  ⟨by decide, by decide,
    add_twice_single_entry_and_conflict [1] [] favoritesVerboseName 1 1
      (by decide) (by decide)⟩

end Foodgram

namespace Foodgram

/-- C9: with the recipe present, removing a (user, recipe) pair that has
no entry reports a client error and leaves the table unchanged; removing
a pair with exactly one entry reports success and deletes exactly that
row (one row fewer, the pair gone, every other row preserved). -/
theorem delete_reports_missing_and_removes_exactly_one (recipes : List Nat)
    (table : List CollectionEntry) (user recipeId : Nat)
    (hrec : recipeId ∈ recipes) :
    ((⟨user, recipeId⟩ : CollectionEntry) ∉ table →
      delete_recipe recipes table user recipeId = (.badRequest, table)) ∧
    (table.count (⟨user, recipeId⟩ : CollectionEntry) = 1 →
      (delete_recipe recipes table user recipeId).1 = .noContent ∧
      (delete_recipe recipes table user recipeId).2.length + 1 = table.length ∧
      (⟨user, recipeId⟩ : CollectionEntry) ∉
        (delete_recipe recipes table user recipeId).2 ∧
      ∀ e ∈ table, e ≠ (⟨user, recipeId⟩ : CollectionEntry) →
        e ∈ (delete_recipe recipes table user recipeId).2) := by
  have hpair : ∀ e : CollectionEntry,
      (e.author == user && e.recipe == recipeId) = true ↔
        e = ⟨user, recipeId⟩ := by
    intro e
    cases e
    simp [CollectionEntry.mk.injEq]
  have hsplit : ∀ (l : List CollectionEntry) (q : CollectionEntry → Bool),
      (l.filter fun e => !(q e)).length + (l.filter q).length = l.length := by
    intro l q
    induction l with
    | nil => rfl
    | cons a t ih =>
      by_cases h : q a = true <;>
        simp [List.filter_cons, h] <;> omega
  constructor
  · intro hnew
    have hfe : (table.filter
        fun e => !(e.author == user && e.recipe == recipeId)) = table := by
      rw [List.filter_eq_self]
      intro e he
      have hb : ¬((e.author == user && e.recipe == recipeId) = true) := by
        intro h
        exact hnew ((hpair e).mp h ▸ he)
      rw [Bool.not_eq_true] at hb
      rw [hb]
      rfl
    simp only [delete_recipe]
    rw [if_pos hrec, hfe, Nat.sub_self]
    rfl
  · intro hcount
    have hfiltercnt : (table.filter
        fun e => e.author == user && e.recipe == recipeId).length = 1 := by
      have hcongr : (table.filter
          fun e => e.author == user && e.recipe == recipeId) =
          table.filter fun e => e == (⟨user, recipeId⟩ : CollectionEntry) := by
        apply List.filter_congr
        intro e _
        rcases Bool.eq_false_or_eq_true
            (e == (⟨user, recipeId⟩ : CollectionEntry)) with h | h
        · rw [h]
          exact (hpair e).mpr (by simpa using h)
        · rw [h]
          rw [beq_eq_false_iff_ne] at h
          have hb : ¬((e.author == user && e.recipe == recipeId) = true) :=
            fun hc => h ((hpair e).mp hc)
          rw [Bool.not_eq_true] at hb
          exact hb
      rw [hcongr, ← List.countP_eq_length_filter]
      exact hcount
    have hlen : (table.filter
        fun e => !(e.author == user && e.recipe == recipeId)).length + 1 =
        table.length := by
      have := hsplit table fun e => e.author == user && e.recipe == recipeId
      omega
    have hone : table.length - (table.filter
        fun e => !(e.author == user && e.recipe == recipeId)).length = 1 := by
      omega
    have hdel : delete_recipe recipes table user recipeId =
        (DeleteOutcome.noContent, table.filter
          fun e => !(e.author == user && e.recipe == recipeId)) := by
      simp only [delete_recipe]
      rw [if_pos hrec, hone]
      rfl
    refine ⟨by rw [hdel], by rw [hdel]; exact hlen, ?_, ?_⟩
    · rw [hdel]
      simp only [List.mem_filter, not_and]
      intro _
      have : ((⟨user, recipeId⟩ : CollectionEntry).author == user &&
          (⟨user, recipeId⟩ : CollectionEntry).recipe == recipeId) = true :=
        (hpair _).mpr rfl
      rw [this]
      decide
    · intro e he hneq
      rw [hdel, List.mem_filter]
      refine ⟨he, ?_⟩
      have hb : ¬((e.author == user && e.recipe == recipeId) = true) :=
        fun hc => hneq ((hpair e).mp hc)
      rw [Bool.not_eq_true] at hb
      rw [hb]
      rfl

theorem delete_reports_missing_and_removes_exactly_one_witness :
    (1 ∈ ([1] : List Nat)) ∧
    (([(⟨1, 1⟩ : CollectionEntry)]).count (⟨1, 1⟩ : CollectionEntry) = 1) ∧
    ((delete_recipe [1] [(⟨1, 1⟩ : CollectionEntry)] 1 1).1 = .noContent ∧
      (delete_recipe [1] [(⟨1, 1⟩ : CollectionEntry)] 1 1).2.length + 1 =
        [(⟨1, 1⟩ : CollectionEntry)].length ∧
      (⟨1, 1⟩ : CollectionEntry) ∉
        (delete_recipe [1] [(⟨1, 1⟩ : CollectionEntry)] 1 1).2 ∧
      ∀ e ∈ [(⟨1, 1⟩ : CollectionEntry)], e ≠ (⟨1, 1⟩ : CollectionEntry) →
        e ∈ (delete_recipe [1] [(⟨1, 1⟩ : CollectionEntry)] 1 1).2) :=
  ⟨by decide, by decide,
    (delete_reports_missing_and_removes_exactly_one [1]
      [(⟨1, 1⟩ : CollectionEntry)] 1 1 (by decide)).2 (by decide)⟩

end Foodgram

namespace Foodgram

/-- A list is duplicate-free iff it is as long as its deduplication
(the embedding of Python's `len(ids) != len(set(ids))` check). -/
theorem length_eq_dedup_length_iff {l : List Nat} :
    l.length = l.dedup.length ↔ l.Nodup := by
  constructor
  · intro h
    have hsub : List.Sublist l.dedup l := List.dedup_sublist l
    have heq : l.dedup = l := hsub.eq_of_length h.symm
    rw [← heq]
    exact l.nodup_dedup
  · intro h
    rw [List.dedup_eq_self.mpr h]

/-- If the per-ingredient loop of `RecipeCreateSerializer.validate`
succeeds, the entry ids are duplicate-free and none was seen before. -/
theorem validateIngredientsLoop_ok (l : List IngredientEntry) :
    ∀ (seen : List Nat) (u : Unit),
      validateIngredientsLoop seen l = .ok u →
      (l.map IngredientEntry.id).Nodup ∧
        ∀ x ∈ l.map IngredientEntry.id, x ∉ seen := by
  induction l with
  | nil =>
    intro seen u _
    exact ⟨List.nodup_nil, by simp⟩
  | cons e rest ih =>
    intro seen u h
    simp only [validateIngredientsLoop] at h
    by_cases h1 : e.id ∈ seen
    · rw [if_pos h1] at h
      cases h
    · rw [if_neg h1] at h
      by_cases h2 : e.amount ≤ 0
      · rw [if_pos h2] at h
        cases h
      · rw [if_neg h2] at h
        obtain ⟨hnd, hmem⟩ := ih (e.id :: seen) u h
        constructor
        · simp only [List.map_cons, List.nodup_cons]
          exact ⟨fun hx => (hmem e.id hx) (List.mem_cons_self e.id seen), hnd⟩
        · intro x hx
          simp only [List.map_cons, List.mem_cons] at hx
          rcases hx with rfl | hx
          · exact h1
          · intro hxs
            exact hmem x hx (List.mem_cons_of_mem e.id hxs)

/-- If `RecipeCreateSerializer.validate` succeeds, the tag list is
non-empty and duplicate-free and the ingredient list is non-empty with
duplicate-free ingredient ids. -/
theorem recipeCreateValidate_ok (tags : List Nat)
    (entries : List IngredientEntry) (u : Unit)
    (h : recipeCreateValidate tags entries = .ok u) :
    tags ≠ [] ∧ tags.Nodup ∧ entries ≠ [] ∧
      (entries.map IngredientEntry.id).Nodup := by
  unfold recipeCreateValidate at h
  by_cases h1 : tags = []
  · rw [if_pos h1] at h
    cases h
  · rw [if_neg h1] at h
    by_cases h2 : tags.length ≠ tags.dedup.length
    · rw [if_pos h2] at h
      cases h
    · rw [if_neg h2] at h
      by_cases h3 : entries = []
      · rw [if_pos h3] at h
        cases h
      · rw [if_neg h3] at h
        exact ⟨h1, length_eq_dedup_length_iff.mp (not_ne_iff.mp h2), h3,
          (validateIngredientsLoop_ok entries [] u h).1⟩

/-- C5: a create or update input whose tag list is empty or duplicated,
or whose ingredient list is empty or references the same ingredient id
twice, is rejected with a validation message and the store is returned
unchanged — no recipe row, tag row or junction row is written. -/
theorem invalid_associations_rejected_before_write (st : StoreState)
    (newId recipe : Nat) (tags : List Nat) (entries : List IngredientEntry)
    (h : tags = [] ∨ ¬ tags.Nodup ∨ entries = [] ∨
      ¬ (entries.map IngredientEntry.id).Nodup) :
    (∃ m, runCreate st newId tags entries = (st, some m)) ∧
    (∃ m, runUpdate st recipe tags entries = (st, some m)) := by
  cases hv : recipeCreateValidate tags entries with
  | error m =>
    exact ⟨⟨m, by simp [runCreate, hv]⟩, ⟨m, by simp [runUpdate, hv]⟩⟩
  | ok u =>
    obtain ⟨h1, h2, h3, h4⟩ := recipeCreateValidate_ok tags entries u hv
    rcases h with h | h | h | h
    · exact absurd h h1
    · exact absurd h2 h
    · exact absurd h h3
    · exact absurd h4 h

theorem invalid_associations_rejected_before_write_witness :
    (¬ ([1, 1] : List Nat).Nodup) ∧
    ((∃ m, runCreate plainStore 2 [1, 1] [⟨1, "flour", 100⟩] =
        (plainStore, some m)) ∧
      (∃ m, runUpdate plainStore 1 [1, 1] [⟨1, "flour", 100⟩] =
        (plainStore, some m))) :=
  ⟨by decide,
    invalid_associations_rejected_before_write plainStore 2 1 [1, 1]
      [⟨1, "flour", 100⟩] (Or.inr (Or.inl (by decide)))⟩

end Foodgram

namespace Foodgram

/-- Mapping a function over the keys of the accumulator commutes with
`insertRow`, provided the function collides with the inserted key only on
the key itself. -/
theorem insertRow_map {κ κ' : Type} [DecidableEq κ] [DecidableEq κ']
    (f : κ → κ') (acc : List (κ × Int)) (k : κ) (a : Int)
    (hinj : ∀ x ∈ acc.map Prod.fst, f x = f k → x = k) :
    insertRow (acc.map fun r => (f r.1, r.2)) (f k) a =
      (insertRow acc k a).map fun r => (f r.1, r.2) := by
  induction acc with
  | nil => rfl
  | cons hd tl ih =>
    obtain ⟨k', a'⟩ := hd
    by_cases hk : k' = k
    · subst hk
      simp [insertRow]
    · have hfk : ¬ (f k' = f k) := fun hf => hk (hinj k' (by simp) hf)
      simp only [List.map_cons, insertRow, if_neg hk, if_neg hfk,
        List.cons.injEq, true_and]
      exact ih fun x hx hfx => hinj x (by simp [hx]) hfx

/-- The keys present after an `insertRow` are the old keys plus possibly
the inserted key. -/
theorem insertRow_keys_subset {κ : Type} [DecidableEq κ]
    (acc : List (κ × Int)) (k : κ) (a : Int) :
    ∀ x ∈ (insertRow acc k a).map Prod.fst,
      x ∈ acc.map Prod.fst ∨ x = k := by
  induction acc with
  | nil =>
    intro x hx
    simp only [insertRow, List.map_cons, List.map_nil, List.mem_cons,
      List.not_mem_nil, or_false] at hx
    exact Or.inr hx
  | cons hd tl ih =>
    obtain ⟨k', a'⟩ := hd
    intro x hx
    by_cases hk : k' = k
    · subst hk
      simp only [insertRow, if_pos rfl, List.map_cons] at hx
      exact Or.inl hx
    · simp only [insertRow, if_neg hk, List.map_cons, List.mem_cons] at hx
      rcases hx with rfl | hx
      · exact Or.inl (by simp)
      · rcases ih x hx with hmem | rfl
        · exact Or.inl (List.mem_cons_of_mem _ hmem)
        · exact Or.inr rfl

/-- The grouped fold commutes with an injective relabelling of the keys. -/
theorem groupSum_foldl_map {κ κ' : Type} [DecidableEq κ] [DecidableEq κ']
    (f : κ → κ') (rows : List (κ × Int)) :
    ∀ acc : List (κ × Int),
      (∀ x ∈ acc.map Prod.fst ++ rows.map Prod.fst,
        ∀ y ∈ acc.map Prod.fst ++ rows.map Prod.fst, f x = f y → x = y) →
      (rows.map fun r => (f r.1, r.2)).foldl
          (fun acc r => insertRow acc r.1 r.2)
          (acc.map fun r => (f r.1, r.2)) =
        (rows.foldl (fun acc r => insertRow acc r.1 r.2) acc).map
          fun r => (f r.1, r.2) := by
  induction rows with
  | nil =>
    intro acc _
    rfl
  | cons r rest ih =>
    intro acc hinj
    have hstep : insertRow (acc.map fun s => (f s.1, s.2)) (f r.1) r.2 =
        (insertRow acc r.1 r.2).map fun s => (f s.1, s.2) := by
      apply insertRow_map
      intro x hx hfx
      exact hinj x (by simp [hx]) r.1 (by simp) hfx
    have hsub : ∀ x ∈ (insertRow acc r.1 r.2).map Prod.fst ++
        rest.map Prod.fst,
        x ∈ acc.map Prod.fst ++ (r :: rest).map Prod.fst := by
      intro x hx
      rcases List.mem_append.mp hx with hx | hx
      · rcases insertRow_keys_subset acc r.1 r.2 x hx with h | rfl
        · exact List.mem_append.mpr (Or.inl h)
        · exact List.mem_append.mpr (Or.inr (by simp))
      · exact List.mem_append.mpr (Or.inr (by simp [hx]))
    simp only [List.map_cons, List.foldl_cons]
    rw [hstep]
    exact ih (insertRow acc r.1 r.2)
      fun x hx y hy hfx => hinj x (hsub x hx) y (hsub y hy) hfx

/-- The function `groupSum` commutes with an injective relabelling of the keys. -/
theorem groupSum_map {κ κ' : Type} [DecidableEq κ] [DecidableEq κ']
    (f : κ → κ') (rows : List (κ × Int))
    (hinj : ∀ x ∈ rows.map Prod.fst, ∀ y ∈ rows.map Prod.fst,
      f x = f y → x = y) :
    groupSum (rows.map fun r => (f r.1, r.2)) =
      (groupSum rows).map fun r => (f r.1, r.2) := by
  have h := groupSum_foldl_map f rows [] (by simpa using hinj)
  simpa [groupSum] using h

/-- Every key of the user's cart junction rows is an ingredient of the
store (the join resolves the foreign key). -/
theorem cartItemRows_key_mem (st : StoreState) (user : Nat) :
    ∀ r ∈ cartItemRows st user, r.1 ∈ st.ingredients := by
  intro r hr
  simp only [cartItemRows, List.mem_filterMap] at hr
  obtain ⟨ri, _, h⟩ := hr
  by_cases hc : (st.shoppingcart.any
      fun c => c.author == user && c.recipe == ri.recipe) = true
  · rw [if_pos hc] at h
    rcases hlook : lookupIngredient st.ingredients ri.ingredient with _ | ing
    · rw [hlook] at h
      cases h
    · rw [hlook] at h
      cases h
      unfold lookupIngredient at hlook
      exact List.mem_of_find?_eq_some hlook
  · rw [if_neg hc] at h
    cases h

/-- C1: when ingredient names are unique (the store constraint on
`Ingredient.name`), the aggregation of `download_shopping_cart`, which
groups by (name, measurement_unit), coincides with grouping the cart's
junction rows by the ingredient identity and projecting name and unit
afterwards — so amounts are summed per ingredient and no two distinct
ingredients are merged. -/
theorem download_groups_by_ingredient_identity (st : StoreState) (user : Nat)
    (hnames : (st.ingredients.map Ingredient.name).Nodup) :
    build st user = build_by_identity st user := by
  have hinj : ∀ x ∈ (cartItemRows st user).map Prod.fst,
      ∀ y ∈ (cartItemRows st user).map Prod.fst,
      nameUnitKey x = nameUnitKey y → x = y := by
    intro x hx y hy hf
    simp only [List.mem_map] at hx hy
    obtain ⟨rx, hrx, hx1⟩ := hx
    obtain ⟨ry, hry, hy1⟩ := hy
    have hxm : x ∈ st.ingredients :=
      hx1 ▸ cartItemRows_key_mem st user rx hrx
    have hym : y ∈ st.ingredients :=
      hy1 ▸ cartItemRows_key_mem st user ry hry
    have hname : x.name = y.name := congrArg Prod.fst hf
    exact List.inj_on_of_nodup_map hnames hxm hym hname
  have hmap := groupSum_map nameUnitKey (cartItemRows st user) hinj
  unfold build build_by_identity
  rw [hmap, List.map_map]
  rfl

theorem download_groups_by_ingredient_identity_witness :
    ((flourStore.ingredients.map Ingredient.name).Nodup) ∧
    build flourStore 1 = [⟨"flour", "г", 500⟩] ∧
    build flourStore 1 = build_by_identity flourStore 1 :=
  ⟨by decide, by decide,
    download_groups_by_ingredient_identity flourStore 1 (by decide)⟩

end Foodgram
